import Mathlib

/-
  Verification development for the claude-hud-enhanced statusline engine.

  The JavaScript/TypeScript sources are shallowly embedded as pure Lean
  functions.  JavaScript numbers flowing out of JSON.parse are modelled as
  rationals (JSON has no NaN/Infinity literal); where the code explicitly
  tests Number.isFinite on API-provided values we model the value space as
  the inductive JsNum with explicit nan/inf constructors.  JavaScript Dates
  are modelled as millisecond integers (Date.getTime) or, in the transcript
  accumulator where only construction and equality matter, as the inductive
  JsDate.  Optional / possibly-undefined fields become Option.
-/

/- ===================== JavaScript value helpers ===================== -/

/-- A JavaScript number as seen by code that checks Number.isFinite:
either NaN, one of the two infinities, or a finite value (modelled
exactly as a rational). -/
inductive JsNum where
  | nan
  | inf
  | ninf
  | fin (q : ℚ)
deriving DecidableEq

/-- Number.isFinite -/
def jsIsFinite : JsNum → Bool
  | .fin _ => true
  | _ => false

/-- JavaScript Math.round on a finite number: round half toward plus
infinity, i.e. the floor of x + 1/2. -/
def jsRound (q : ℚ) : Int := Int.floor (q + 1 / 2)

/-- JavaScript string truthiness for an optional string: undefined/null and
the empty string are falsy. -/
def strTruthy (o : Option String) : Bool :=
  match o with
  | none => false
  | some s => s ≠ ""

/-- The JavaScript nullish-coalescing operator a ?? b on optional values. -/
def jsNullish (a b : Option α) : Option α :=
  match a with
  | some v => some v
  | none => b

/- ===================== usage-api.js : parseUtilization ===================== -/

/-- usage-api.js parseUtilization: null/undefined input yields null,
non-finite input yields null, a finite input is clamped to [0,100] with
Math.max/Math.min and rounded with Math.round. -/
def parseUtilization (value : Option JsNum) : Option Int :=
  match value with
  | none => none
  | some (.fin q) => some (jsRound (max 0 (min 100 q)))
  | some _ => none

/- ===================== usage-api.js : mergeApiResponses ===================== -/

/-- One usage window object of an API response (five_hour / seven_day):
a utilization number and a resets_at ISO string, each possibly absent. -/
structure UsageWindowRaw where
  utilization : Option JsNum
  resets_at : Option String
deriving DecidableEq

/-- One element of the model_quotas array of an API response. -/
structure RawQuota where
  model_id : Option String
  display_name : Option String
  weekly_hours_used : Option ℚ
  weekly_hours_limit : Option ℚ
  tokens_used : Option ℚ
  tokens_limit : Option ℚ
  utilization : Option JsNum
  resets_at : Option String
deriving DecidableEq

/-- The (merged) shape of the two usage endpoints' JSON responses. -/
structure ApiResponse where
  five_hour : Option UsageWindowRaw
  seven_day : Option UsageWindowRaw
  model_quotas : Option (List RawQuota)
  max_plan_type : Option String
  compaction_buffer : Option JsNum
  tokens_per_window : Option ℚ
deriving DecidableEq

/-- usage-api.js mergeApiResponses: null if both responses are null, the
surviving response when exactly one is null, otherwise a field-by-field
nullish-coalescing merge preferring the primary (legacy) endpoint. -/
def mergeApiResponses (primary secondary : Option ApiResponse) : Option ApiResponse :=
  match primary, secondary with
  | none, none => none
  | none, some s => some s
  | some p, none => some p
  | some p, some s =>
    some {
      five_hour := jsNullish p.five_hour s.five_hour
      seven_day := jsNullish p.seven_day s.seven_day
      model_quotas := jsNullish p.model_quotas s.model_quotas
      max_plan_type := jsNullish p.max_plan_type s.max_plan_type
      compaction_buffer := jsNullish p.compaction_buffer s.compaction_buffer
      tokens_per_window := jsNullish p.tokens_per_window s.tokens_per_window
    }

/-- Spec-side formulation of the merge rule ("prefer the legacy endpoint's
value when present, else the enhanced endpoint's"), to be compared with the
source-side mergeApiResponses. -/
def specPreferLegacy (legacy enhanced : Option α) : Option α :=
  if legacy.isSome then legacy else enhanced

/- ===================== usage-api.js : plan classification ===================== -/

/-- Whether a character list begins with the given pattern. -/
def headMatches : List Char → List Char → Bool
  | [], _ => true
  | _ :: _, [] => false
  | p :: ps, c :: cs => p = c && headMatches ps cs

/-- Whether a character list contains the given pattern as a contiguous
subsequence. -/
def containsSeq (pat : List Char) : List Char → Bool
  | [] => headMatches pat []
  | c :: cs => headMatches pat (c :: cs) || containsSeq pat cs

/-- JavaScript String.prototype.includes: substring containment. -/
def jsIncludes (s sub : String) : Bool := containsSeq sub.data s.data

/-- JavaScript String.prototype.toLowerCase (restricted to the ASCII case
mapping of Char.toLower). -/
def lowerStr (s : String) : String := String.mk (s.data.map Char.toLower)

/-- JavaScript charAt(0).toUpperCase() + slice(1). -/
def jsCapitalize (s : String) : String :=
  match s.data with
  | [] => s
  | c :: rest => String.mk (c.toUpper :: rest)

def maxKw : String := "max"
def proKw : String := "pro"
def teamKw : String := "team"
def apiKw : String := "api"
def maxPlan : String := "Max"
def proPlan : String := "Pro"
def teamPlan : String := "Team"
def emptyStr : String := ""

/-- usage-api.js getPlanName: substring classification of the subscription
type, with an explicit Pro default for an empty subscription type when an
OAuth token is present, and title-casing of unknown non-empty types. -/
def getPlanName (subscriptionType : String) (hasOAuthToken : Bool) : Option String :=
  let lower := lowerStr subscriptionType
  if jsIncludes lower maxKw then some maxPlan
  else if jsIncludes lower proKw then some proPlan
  else if jsIncludes lower teamKw then some teamPlan
  else if jsIncludes lower apiKw then none
  else if subscriptionType = emptyStr ∧ hasOAuthToken then some proPlan
  else if subscriptionType = emptyStr then none
  else some (jsCapitalize subscriptionType)

/- ===================== usage-api.js : credentials ===================== -/

/-- The claudeAiOauth section of the credentials JSON. -/
structure OauthSection where
  accessToken : Option String
  subscriptionType : Option String
  expiresAt : Option Int
  rateLimitTier : Option String
deriving DecidableEq

/-- The oauthAccount section of the credentials JSON. -/
structure OauthAccount where
  organizationUuid : Option String
deriving DecidableEq

/-- Parsed credentials-file (or Keychain) JSON content. -/
structure CredData where
  claudeAiOauth : Option OauthSection
  oauthAccount : Option OauthAccount
deriving DecidableEq

/-- The credential record returned by readCredentials. -/
structure Credentials where
  accessToken : String
  subscriptionType : String
  organizationUuid : Option String
  rateLimitTier : Option String
deriving DecidableEq

/-- usage-api.js readCredentials, with the two external data sources (the
credentials file and the macOS Keychain entry, each already JSON-parsed,
none when missing or unparsable) passed in explicitly.  Falls back to the
Keychain when the file yields no truthy access token; returns none without
a truthy access token; treats expiresAt (Unix ms) at or before now as
expired (the boundary comparison in the source is expiresAt <= now). -/
def readCredentials (fileData keychainData : Option CredData) (now : Int) :
    Option Credentials :=
  let data :=
    match fileData with
    | none => keychainData
    | some d =>
      if strTruthy (d.claudeAiOauth.bind (fun o => o.accessToken)) then some d
      else keychainData
  match data with
  | none => none
  | some d =>
    let accessToken := d.claudeAiOauth.bind (fun o => o.accessToken)
    let subscriptionType := (d.claudeAiOauth.bind (fun o => o.subscriptionType)).getD emptyStr
    let organizationUuid := d.oauthAccount.bind (fun a => a.organizationUuid)
    let rateLimitTier := d.claudeAiOauth.bind (fun o => o.rateLimitTier)
    if strTruthy accessToken = false then none
    else
      match d.claudeAiOauth.bind (fun o => o.expiresAt) with
      | some e =>
        if e ≤ now then none
        else some ⟨accessToken.getD emptyStr, subscriptionType, organizationUuid, rateLimitTier⟩
      | none => some ⟨accessToken.getD emptyStr, subscriptionType, organizationUuid, rateLimitTier⟩

/- ===================== usage-api.js : response parsing ===================== -/

def unknownModelId : String := "unknown"
def unknownModelName : String := "Unknown Model"

/-- usage-api.js parseDate, with the JavaScript Date parser supplied as an
external oracle dp mapping an ISO string to epoch milliseconds (none when
the engine would produce an Invalid Date): falsy input strings and
unparseable strings become null. -/
def parseDate (dp : String → Option Int) (dateStr : Option String) : Option Int :=
  match dateStr with
  | none => none
  | some s => if s = emptyStr then none else dp s

/-- A parsed per-model quota. -/
structure ModelQuota where
  modelId : String
  displayName : String
  weeklyHoursUsed : Option ℚ
  weeklyHoursLimit : Option ℚ
  tokensUsed : Option ℚ
  tokensLimit : Option ℚ
  utilization : Option Int
  resetsAt : Option Int
deriving DecidableEq

/-- usage-api.js parseModelQuotas. -/
def parseModelQuotas (dp : String → Option Int) (quotas : Option (List RawQuota)) :
    List ModelQuota :=
  match quotas with
  | none => []
  | some qs =>
    qs.map (fun q =>
      { modelId := q.model_id.getD unknownModelId
        displayName := (jsNullish q.display_name q.model_id).getD unknownModelName
        weeklyHoursUsed := q.weekly_hours_used
        weeklyHoursLimit := q.weekly_hours_limit
        tokensUsed := q.tokens_used
        tokensLimit := q.tokens_limit
        utilization := parseUtilization q.utilization
        resetsAt := parseDate dp q.resets_at })

def max20Tier : String := "Max20"
def max5Tier : String := "Max5"
def max20Kw : String := "max20"
def max5Kw : String := "max5"
def twentyStr : String := "20"
def fiveStr : String := "5"
def tier20Kw : String := "tier_20"
def tier5Kw : String := "tier_5"

/-- Parsed Max-plan tier information. -/
structure MaxPlanInfo where
  tier : Option String
  tokensPerWindow : Option ℚ
  isActive : Bool
deriving DecidableEq

/-- usage-api.js parseMaxPlanInfo: explicit max_plan_type first, then the
rateLimitTier hint from the credentials. -/
def parseMaxPlanInfo (maxPlanType : Option String) (tokensPerWindow : Option ℚ)
    (rateLimitTier : Option String) : MaxPlanInfo :=
  let step1 : Option String × Option ℚ :=
    match maxPlanType with
    | some t =>
      if t ≠ emptyStr then
        let lower := lowerStr t
        if jsIncludes lower max20Kw ∨ lower = twentyStr then
          (some max20Tier, some (tokensPerWindow.getD 220000))
        else if jsIncludes lower max5Kw ∨ lower = fiveStr then
          (some max5Tier, some (tokensPerWindow.getD 88000))
        else (none, none)
      else (none, none)
    | none => (none, none)
  let step2 : Option String × Option ℚ :=
    match step1.1, rateLimitTier with
    | none, some r =>
      if r ≠ emptyStr then
        let lower := lowerStr r
        if jsIncludes lower max20Kw ∨ jsIncludes lower tier20Kw then
          (some max20Tier, some 220000)
        else if jsIncludes lower max5Kw ∨ jsIncludes lower tier5Kw then
          (some max5Tier, some 88000)
        else (none, none)
      else (none, none)
    | t, _ => (t, step1.2)
  { tier := step2.1, tokensPerWindow := step2.2, isActive := step2.1 ≠ none }

/-- Parsed compaction-buffer configuration. -/
structure CompactionInfo where
  bufferPercent : Int
  isEnabled : Bool
deriving DecidableEq

/-- usage-api.js parseCompactionInfo: defaults to an 80% threshold marked
unconfigured when the server reports nothing finite, otherwise clamps the
reported value to [50,100] and marks it enabled. -/
def parseCompactionInfo (bufferPercent : Option JsNum) : CompactionInfo :=
  match bufferPercent with
  | some (.fin q) => { bufferPercent := jsRound (max 50 (min 100 q)), isEnabled := true }
  | _ => { bufferPercent := 80, isEnabled := false }

/- ===================== usage-api.js : countdown formatting ===================== -/

def nowWord : String := "now"
def minSuffix : String := "m"
def hourSuffix : String := "h"
def daySuffix : String := "d"
def oneSpace : String := " "

/-- usage-api.js formatTimeToReset: human-readable time until resetAt
(epoch ms) measured from now, rounding minutes up with Math.ceil. -/
def formatTimeToReset (resetAt now : Int) : String :=
  let diffMs := resetAt - now
  if diffMs ≤ 0 then nowWord
  else
    let totalMins := ((diffMs + 59999) / 60000).toNat
    if totalMins < 60 then toString totalMins ++ minSuffix
    else
      let hours := totalMins / 60
      let mins := totalMins % 60
      if hours < 24 then
        if mins > 0 then
          toString hours ++ hourSuffix ++ oneSpace ++ toString mins ++ minSuffix
        else toString hours ++ hourSuffix
      else
        let days := hours / 24
        let remainingHours := hours % 24
        if remainingHours > 0 then
          toString days ++ daySuffix ++ oneSpace ++ toString remainingHours ++ hourSuffix
        else toString days ++ daySuffix

/- ===================== usage-api.js : UsageData, cache, getUsage ===================== -/

/-- The UsageData payload produced by getUsage (types.d.ts UsageData).
Dates are epoch milliseconds; apiUnavailable is an optional boolean field
in the source, read only through truthiness, so it is modelled as Bool. -/
structure UsageData where
  planName : Option String
  fiveHour : Option Int
  sevenDay : Option Int
  fiveHourResetAt : Option Int
  sevenDayResetAt : Option Int
  apiUnavailable : Bool := false
  modelQuotas : Option (List ModelQuota) := none
  maxPlanInfo : Option MaxPlanInfo := none
  compactionInfo : Option CompactionInfo := none
  organizationUuid : Option String := none
  fiveHourResetIn : Option String := none
  sevenDayResetIn : Option String := none
deriving DecidableEq

/-- The single cache slot: {data, timestamp}. -/
structure CacheRecord where
  data : UsageData
  timestamp : Int
deriving DecidableEq

def CACHE_TTL_MS : Int := 60000
def CACHE_FAILURE_TTL_MS : Int := 15000

/-- usage-api.js readCache, with the parsed content of the cache file
passed in explicitly (none when the file is missing or unparsable, which
the source turns into a cache miss via existsSync / try-catch).  A record
is discarded when now - timestamp >= ttl, the ttl being the short failure
ttl when the cached payload carries apiUnavailable and the success ttl
otherwise.  The ISO-string re-hydration of the two reset dates in the
source is the identity here because dates are modelled as epoch ms. -/
def readCache (cache : Option CacheRecord) (now : Int) : Option UsageData :=
  match cache with
  | none => none
  | some rec =>
    let ttl := if rec.data.apiUnavailable then CACHE_FAILURE_TTL_MS else CACHE_TTL_MS
    if now - rec.timestamp ≥ ttl then none
    else some rec.data

/-- The countdown refresh getUsage performs on a cache hit: recompute
fiveHourResetIn / sevenDayResetIn from the stored reset dates and now. -/
def refreshCountdowns (d : UsageData) (now : Int) : UsageData :=
  let d1 :=
    match d.fiveHourResetAt with
    | some t => { d with fiveHourResetIn := some (formatTimeToReset t now) }
    | none => d
  match d1.sevenDayResetAt with
  | some t => { d1 with sevenDayResetIn := some (formatTimeToReset t now) }
  | none => d1

/-- The external inputs of getUsage, mirroring its dependency-injection
record plus the file-system state it reads: the parsed cache slot, the
parsed credentials file and Keychain entry, the two fetch functions'
eventual responses (none = request failed / timed out / non-200), the
Date-parsing oracle, and the clock. -/
structure UsageDeps where
  cache : Option CacheRecord
  credFile : Option CredData
  keychain : Option CredData
  apiResponse : Option ApiResponse
  usageLimitsResponse : Option ApiResponse
  dateParse : String → Option Int
  now : Int

/-- The observable outcome of one getUsage call: its return value, whether
the two fetch functions were invoked, and the cache write it performed. -/
structure GetUsageResult where
  result : Option UsageData
  fetchInvoked : Bool
  cacheWrite : Option CacheRecord

/-- usage-api.js getUsage as a pure function of its external inputs:
cache check first (returning the cached payload with refreshed countdowns
and no fetch), then credential resolution and plan classification (null on
failure, silently), then the dual fetch whose merged result is either a
cached failure payload (both endpoints down) or the fully parsed usage
data, written to the cache with timestamp now. -/
def getUsage (deps : UsageDeps) : GetUsageResult :=
  let now := deps.now
  match readCache deps.cache now with
  | some cached =>
    { result := some (refreshCountdowns cached now), fetchInvoked := false, cacheWrite := none }
  | none =>
    match readCredentials deps.credFile deps.keychain now with
    | none => { result := none, fetchInvoked := false, cacheWrite := none }
    | some creds =>
      match getPlanName creds.subscriptionType true with
      | none => { result := none, fetchInvoked := false, cacheWrite := none }
      | some planName =>
        match mergeApiResponses deps.apiResponse deps.usageLimitsResponse with
        | none =>
          let failureResult : UsageData :=
            { planName := some planName, fiveHour := none, sevenDay := none,
              fiveHourResetAt := none, sevenDayResetAt := none, apiUnavailable := true }
          { result := some failureResult, fetchInvoked := true,
            cacheWrite := some ⟨failureResult, now⟩ }
        | some merged =>
          let fiveHour := parseUtilization (merged.five_hour.bind (fun w => w.utilization))
          let sevenDay := parseUtilization (merged.seven_day.bind (fun w => w.utilization))
          let fiveHourResetAt := parseDate deps.dateParse (merged.five_hour.bind (fun w => w.resets_at))
          let sevenDayResetAt := parseDate deps.dateParse (merged.seven_day.bind (fun w => w.resets_at))
          let modelQuotas := parseModelQuotas deps.dateParse merged.model_quotas
          let maxPlanInfo := parseMaxPlanInfo merged.max_plan_type merged.tokens_per_window creds.rateLimitTier
          let compactionInfo := parseCompactionInfo merged.compaction_buffer
          let result : UsageData :=
            { planName := some planName
              fiveHour := fiveHour
              sevenDay := sevenDay
              fiveHourResetAt := fiveHourResetAt
              sevenDayResetAt := sevenDayResetAt
              apiUnavailable := false
              modelQuotas := if modelQuotas.length > 0 then some modelQuotas else none
              maxPlanInfo := if strTruthy maxPlanInfo.tier then some maxPlanInfo else none
              compactionInfo := if compactionInfo.isEnabled then some compactionInfo else none
              organizationUuid := creds.organizationUuid
              fiveHourResetIn := fiveHourResetAt.map (fun t => formatTimeToReset t now)
              sevenDayResetIn := sevenDayResetAt.map (fun t => formatTimeToReset t now) }
          { result := some result, fetchInvoked := true, cacheWrite := some ⟨result, now⟩ }

/- ===================== usage-api.js : writeCache file-system trace ===================== -/

def cacheRelDir : String := "/.claude/plugins/claude-hud"
def cacheFileName : String := "/.usage-cache.json"

/-- usage-api.js getCachePath: path.join(homeDir, ".claude", "plugins",
"claude-hud", ".usage-cache.json"). -/
def getCachePath (homeDir : String) : String := homeDir ++ cacheRelDir ++ cacheFileName

/-- The cache directory (path.dirname of the cache path). -/
def getCacheDir (homeDir : String) : String := homeDir ++ cacheRelDir

/-- A file-system operation, at the granularity relevant to write
atomicity: recursive directory creation, an in-place whole-file write to a
path (fs.writeFileSync: open with truncation, then write), and an atomic
rename. -/
inductive FsOp where
  | mkdirRecursive (p : String)
  | writeFileInPlace (p : String) (content : String)
  | rename (src dst : String)
deriving DecidableEq

/-- usage-api.js writeCache as the sequence of file-system operations it
issues: an optional recursive mkdir of the cache directory (when it does
not yet exist), then a single fs.writeFileSync directly to the final cache
path with the serialized record as content. -/
def writeCacheOps (homeDir : String) (content : String) (dirExists : Bool) : List FsOp :=
  (if dirExists then [] else [FsOp.mkdirRecursive (getCacheDir homeDir)]) ++
    [FsOp.writeFileInPlace (getCachePath homeDir) content]

/-- Spec-side notion of an atomic whole-file replace of target: the
sequence never writes the target path in place; the new content reaches
the target only through a rename from a distinct temporary path. -/
def isAtomicReplaceOf (target : String) (ops : List FsOp) : Prop :=
  (∀ c, FsOp.writeFileInPlace target c ∉ ops) ∧
    (∃ tmp c, tmp ≠ target ∧ FsOp.writeFileInPlace tmp c ∈ ops ∧ FsOp.rename tmp target ∈ ops)

/- ===================== stdin.ts : context percentage ===================== -/

/-- context_window.current_usage of the stdin payload. -/
structure CurrentUsage where
  input_tokens : Option ℚ
  cache_creation_input_tokens : Option ℚ
  cache_read_input_tokens : Option ℚ
deriving DecidableEq

/-- context_window of the stdin payload. -/
structure ContextWindow where
  context_window_size : Option ℚ
  used_percentage : Option ℚ
  remaining_percentage : Option ℚ
  current_usage : Option CurrentUsage
deriving DecidableEq

/-- The model block of the stdin payload. -/
structure ModelBlock where
  id : Option String
  display_name : Option String
deriving DecidableEq

/-- The stdin payload (types.ts StdinData).  Numbers are rationals: the
payload is produced by JSON.parse, and JSON has no NaN/Infinity literal. -/
structure StdinData where
  transcript_path : Option String
  cwd : Option String
  model : Option ModelBlock
  context_window : Option ContextWindow
deriving DecidableEq

/-- stdin.ts getTotalTokens: the sum of the three token sub-fields, each
defaulted to 0 when absent. -/
def getTotalTokens (stdin : StdinData) : ℚ :=
  let usage := stdin.context_window.bind (fun cw => cw.current_usage)
  (usage.bind (fun u => u.input_tokens)).getD 0 +
    (usage.bind (fun u => u.cache_creation_input_tokens)).getD 0 +
    (usage.bind (fun u => u.cache_read_input_tokens)).getD 0

/-- stdin.ts getContextPercent: when used_percentage is present (an
explicit !== undefined / !== null check, so 0 counts as present) return
Math.min(100, Math.floor(usedPct)); otherwise fall back to the token sum,
returning 0 when the context-window size is falsy or <= 0, else
Math.min(100, Math.floor(totalTokens / size * 100)). -/
def getContextPercent (stdin : StdinData) : Int :=
  match stdin.context_window.bind (fun cw => cw.used_percentage) with
  | some usedPct => min 100 (Int.floor usedPct)
  | none =>
    match stdin.context_window.bind (fun cw => cw.context_window_size) with
    | none => 0
    | some size =>
      if size ≤ 0 then 0
      else min 100 (Int.floor (getTotalTokens stdin / size * 100))

/- ===================== transcript accumulator (parseTranscript) ===================== -/

/-- A JavaScript Date as used by the transcript accumulator: either parsed
from a timestamp string, or the current time (new Date() with no
argument, taken when the entry has no truthy timestamp). -/
inductive JsDate where
  | parsed (s : String)
  | current
deriving DecidableEq

inductive ToolStatus where
  | running
  | completed
  | error
deriving DecidableEq

inductive AgentStatus where
  | running
  | completed
deriving DecidableEq

/-- types ToolEntry. -/
structure ToolEntry where
  id : String
  name : String
  target : Option String
  status : ToolStatus
  startTime : JsDate
  endTime : Option JsDate := none
deriving DecidableEq

/-- types AgentEntry. -/
structure AgentEntry where
  id : String
  type : String
  model : Option String
  description : Option String
  status : AgentStatus
  startTime : JsDate
  endTime : Option JsDate := none
deriving DecidableEq

/-- types TodoItem (status kept as the raw string; the accumulator copies
todo items verbatim from the TodoWrite input). -/
structure TodoItem where
  content : String
  status : String
deriving DecidableEq

/-- The fields of a tool_use block's input record that the accumulator
reads (input is Record<string, unknown> in the source). -/
structure ToolInput where
  subagent_type : Option String := none
  model : Option String := none
  description : Option String := none
  todos : Option (List TodoItem) := none
  file_path : Option String := none
  path : Option String := none
  pattern : Option String := none
  command : Option String := none
deriving DecidableEq

/-- A content block of a transcript entry. -/
structure ContentBlock where
  type : String
  id : Option String := none
  name : Option String := none
  text : Option String := none
  input : Option ToolInput := none
  tool_use_id : Option String := none
  is_error : Option Bool := none
deriving DecidableEq

/-- message.content: either a plain string or an array of blocks. -/
inductive MessageContent where
  | str (s : String)
  | blocks (bs : List ContentBlock)
deriving DecidableEq

/-- message of a transcript entry. -/
structure TranscriptMessage where
  content : Option MessageContent
deriving DecidableEq

/-- One parsed transcript line (interface TranscriptLine). -/
structure TranscriptLine where
  type : Option String := none
  timestamp : Option String := none
  message : Option TranscriptMessage := none
deriving DecidableEq

/- ===================== insertion-ordered map (JS Map) ===================== -/

/-- JavaScript Map.get on an insertion-ordered association list. -/
def mapGet (m : List (String × α)) (k : String) : Option α :=
  (m.find? (fun p => p.1 = k)).map (fun p => p.2)

/-- JavaScript Map.set: updating an existing key keeps its position in
iteration order; a new key is appended at the end. -/
def mapSet (m : List (String × α)) (k : String) (v : α) : List (String × α) :=
  match m with
  | [] => [(k, v)]
  | (k0, v0) :: rest => if k0 = k then (k, v) :: rest else (k0, v0) :: mapSet rest k v

/- ===================== transcript string constants ===================== -/

def toolUseStr : String := "tool_use"
def toolResultStr : String := "tool_result"
def textStr : String := "text"
def taskStr : String := "Task"
def todoWriteStr : String := "TodoWrite"
def userStr : String := "user"
def readStr : String := "Read"
def writeStr : String := "Write"
def editStr : String := "Edit"
def globStr : String := "Glob"
def grepStr : String := "Grep"
def bashStr : String := "Bash"
def unknownStr : String := "unknown"
def undefinedStr : String := "undefined"
def ellipsisStr : String := "..."
def interruptedMarker : String := "[Request interrupted"
def cancelledMarker : String := "[Request cancelled"

/- ===================== transcript helpers ===================== -/

/-- The Bash arm of extractTarget: cmd?.slice(0, 30) concatenated with
an ellipsis when longer than 30; with no command the optional chain
yields undefined and JavaScript string concatenation renders it as the
literal string "undefined". -/
def bashTargetOf (cmd : Option String) : String :=
  match cmd with
  | none => undefinedStr
  | some c =>
    String.mk (c.data.take 30) ++ (if 30 < c.data.length then ellipsisStr else emptyStr)

/-- transcript extractTarget: tool-specific choice of the displayed
target. -/
def extractTarget (toolName : String) (input : Option ToolInput) : Option String :=
  match input with
  | none => none
  | some inp =>
    if toolName = readStr ∨ toolName = writeStr ∨ toolName = editStr then
      jsNullish inp.file_path inp.path
    else if toolName = globStr then inp.pattern
    else if toolName = grepStr then inp.pattern
    else if toolName = bashStr then some (bashTargetOf inp.command)
    else none

/-- The timestamp a transcript entry is stamped with: new Date(s) for a
truthy timestamp string, new Date() (the current time) otherwise. -/
def dateOfTimestamp (o : Option String) : JsDate :=
  match o with
  | none => JsDate.current
  | some s => if s = emptyStr then JsDate.current else JsDate.parsed s

/-- The accumulator state threaded through processEntry: the two
insertion-ordered maps, the latest todo list, and the session start. -/
structure AccState where
  toolMap : List (String × ToolEntry)
  agentMap : List (String × AgentEntry)
  latestTodos : List TodoItem
  sessionStart : Option JsDate
deriving DecidableEq

/-- The per-block body of processEntry's content loop. -/
def processBlock (ts : JsDate) (acc : AccState) (block : ContentBlock) : AccState :=
  let acc1 :=
    if block.type = toolUseStr then
      match block.id, block.name with
      | some bid, some bname =>
        if bid ≠ emptyStr ∧ bname ≠ emptyStr then
          if bname = taskStr then
            let agentEntry : AgentEntry :=
              { id := bid
                type := (block.input.bind (fun i => i.subagent_type)).getD unknownStr
                model := block.input.bind (fun i => i.model)
                description := block.input.bind (fun i => i.description)
                status := AgentStatus.running
                startTime := ts }
            { acc with agentMap := mapSet acc.agentMap bid agentEntry }
          else if bname = todoWriteStr then
            match block.input.bind (fun i => i.todos) with
            | some todos => { acc with latestTodos := todos }
            | none => acc
          else
            let toolEntry : ToolEntry :=
              { id := bid
                name := bname
                target := extractTarget bname block.input
                status := ToolStatus.running
                startTime := ts }
            { acc with toolMap := mapSet acc.toolMap bid toolEntry }
        else acc
      | _, _ => acc
    else acc
  if block.type = toolResultStr then
    match block.tool_use_id with
    | some tid =>
      if tid ≠ emptyStr then
        let acc2 :=
          match mapGet acc1.toolMap tid with
          | some tool =>
            let updated : ToolEntry :=
              { tool with
                  status := if block.is_error.getD false then ToolStatus.error else ToolStatus.completed
                  endTime := some ts }
            { acc1 with toolMap := mapSet acc1.toolMap tid updated }
          | none => acc1
        match mapGet acc2.agentMap tid with
        | some agent =>
          let updated : AgentEntry :=
            { agent with status := AgentStatus.completed, endTime := some ts }
          { acc2 with agentMap := mapSet acc2.agentMap tid updated }
        | none => acc2
      else acc1
    | none => acc1
  else acc1

/-- transcript processEntry: stamp the entry's timestamp, record the first
truthy timestamp as session start, then walk the content blocks (skipped
entirely when content is absent or not an array). -/
def processEntry (entry : TranscriptLine) (acc : AccState) : AccState :=
  let ts := dateOfTimestamp entry.timestamp
  let acc :=
    if acc.sessionStart = none ∧ strTruthy entry.timestamp then
      { acc with sessionStart := some ts }
    else acc
  match entry.message with
  | none => acc
  | some msg =>
    match msg.content with
    | some (MessageContent.blocks bs) => bs.foldl (processBlock ts) acc
    | _ => acc

/-- The maximal non-whitespace words of a character list, in order. -/
def wordsAux : List Char → List Char → List (List Char)
  | [], acc => if acc.isEmpty then [] else [acc.reverse]
  | c :: cs, acc =>
    if c.isWhitespace then
      if acc.isEmpty then wordsAux cs [] else acc.reverse :: wordsAux cs []
    else wordsAux cs (c :: acc)

/-- Join words with single spaces. -/
def joinWords : List (List Char) → List Char
  | [] => []
  | [w] => w
  | w :: ws => w ++ ' ' :: joinWords ws

/-- Whitespace collapsing as performed by extractUserText: replace runs of
whitespace by single spaces and trim. -/
def collapseWs (s : String) : String := String.mk (joinWords (wordsAux s.data []))

/-- Join a list of strings with single spaces (Array.prototype.join with
a space separator). -/
def joinStringsWithSpace (l : List String) : String :=
  String.mk (joinWords (l.map (fun s => s.data)))

/-- transcript extractUserText: a string content is collapsed directly; an
array's text blocks are joined and collapsed. -/
def extractUserText (content : MessageContent) : String :=
  match content with
  | MessageContent.str s => collapseWs s
  | MessageContent.blocks bs =>
    collapseWs (joinStringsWithSpace
      (bs.filterMap (fun b =>
        if b.type = textStr ∧ strTruthy b.text then b.text else none)))

/-- transcript isUnhelpfulMessage. -/
def isUnhelpfulMessage (msg : String) : Bool :=
  headMatches interruptedMarker.data msg.data ||
    headMatches cancelledMarker.data msg.data || msg = emptyStr

/-- JavaScript truthiness of entry.message?.content: absent and the empty
string are falsy; any array (even empty) is truthy. -/
def contentTruthy (c : Option MessageContent) : Bool :=
  match c with
  | none => false
  | some (MessageContent.str s) => s ≠ emptyStr
  | some (MessageContent.blocks _) => true

/-- One line of the transcript file after the per-line JSON.parse attempt:
junk (blank, or JSON.parse threw and the line is skipped) or a parsed
entry. -/
inductive Line where
  | junk
  | good (e : TranscriptLine)
deriving DecidableEq

def isGoodLine : Line → Bool
  | Line.junk => false
  | Line.good _ => true

/-- The state of parseTranscript's pass: the accumulator plus the
collected qualifying user messages. -/
structure PassState where
  acc : AccState
  userMessages : List String
deriving DecidableEq

/-- The body of parseTranscript's line loop: junk lines are skipped;
a parsed entry goes through processEntry, and user-typed entries with
truthy content contribute their collapsed text to userMessages unless
empty or unhelpful. -/
def processLine (st : PassState) (l : Line) : PassState :=
  match l with
  | Line.junk => st
  | Line.good entry =>
    let acc2 := processEntry entry st.acc
    let msgs :=
      if entry.type = some userStr ∧ contentTruthy (entry.message.bind (fun m => m.content)) then
        match entry.message.bind (fun m => m.content) with
        | some c =>
          let msgText := extractUserText c
          if msgText ≠ emptyStr ∧ isUnhelpfulMessage msgText = false then
            st.userMessages ++ [msgText]
          else st.userMessages
        | none => st.userMessages
      else st.userMessages
    { acc := acc2, userMessages := msgs }

/-- JavaScript Array.prototype.slice(-n): the final n elements (the whole
list when it is no longer than n). -/
def sliceLast (n : Nat) (l : List α) : List α := l.drop (l.length - n)

/-- types TranscriptData. -/
structure TranscriptData where
  tools : List ToolEntry
  agents : List AgentEntry
  todos : List TodoItem
  sessionStart : Option JsDate
  lastUserMessage : Option String
deriving DecidableEq

def emptyAcc : AccState := { toolMap := [], agentMap := [], latestTodos := [], sessionStart := none }

def initialPassState : PassState := { acc := emptyAcc, userMessages := [] }

/-- transcript parseTranscript over the sequence of lines of the file
(file existence and the readline plumbing are external): a single fold of
processLine, then the post-pass trims tools to the most recent 20 and
agents to the most recent 10 (Array.from(map.values()).slice(-N)), the
latest todo list, and the last qualifying user message. -/
def parseTranscript (lines : List Line) : TranscriptData :=
  let st := lines.foldl processLine initialPassState
  { tools := sliceLast 20 (st.acc.toolMap.map (fun p => p.2))
    agents := sliceLast 10 (st.acc.agentMap.map (fun p => p.2))
    todos := st.acc.latestTodos
    sessionStart := st.acc.sessionStart
    lastUserMessage := st.userMessages.getLast? }

/- ===================== scenario fixtures ===================== -/

def assistantStr : String := "assistant"
def sampleId : String := "toolu_01"
def sampleTs0 : String := "2026-01-01T00:00:00Z"
def sampleTs1 : String := "2026-01-01T00:00:05Z"
def sampleTs2 : String := "2026-01-01T00:00:09Z"

/-- A transcript line holding a single tool_use block. -/
def toolUseLineAt (bid bname : String) (tsStr : Option String) : TranscriptLine :=
  { type := some assistantStr
    timestamp := tsStr
    message := some { content := some (MessageContent.blocks
      [{ type := toolUseStr, id := some bid, name := some bname }]) } }

/-- A transcript line holding a single tool_result block. -/
def toolResultLineAt (tid : String) (err : Bool) (tsStr : Option String) : TranscriptLine :=
  { type := some assistantStr
    timestamp := tsStr
    message := some { content := some (MessageContent.blocks
      [{ type := toolResultStr, tool_use_id := some tid, is_error := some err }]) } }

/-- The ToolEntry created by a tool_use block with no input and no
timestamp on its line. -/
def toolEntryOfPair (p : String × String) : ToolEntry :=
  { id := p.1, name := p.2, target := none, status := ToolStatus.running,
    startTime := JsDate.current, endTime := none }

/-- The AgentEntry created by a Task tool_use block with no input and no
timestamp on its line. -/
def agentEntryOfId (aid : String) : AgentEntry :=
  { id := aid, type := unknownStr, model := none, description := none,
    status := AgentStatus.running, startTime := JsDate.current, endTime := none }

/- ===================== helper lemmas ===================== -/

theorem jsNullish_eq_specPreferLegacy (a b : Option α) :
    jsNullish a b = specPreferLegacy a b := by
  cases a <;> rfl

theorem mapSet_self (m : List (String × α)) (k : String) (v : α)
    (h : mapGet m k = some v) : mapSet m k v = m := by
  induction m with
  | nil => simp [mapGet] at h
  | cons p rest ih =>
    cases p with
    | mk k0 v0 =>
      by_cases hk : k0 = k
      · have hv : v0 = v := by
          simp [mapGet, List.find?, hk] at h
          exact h
        subst hk
        subst hv
        simp [mapSet]
      · have h2 : mapGet rest k = some v := by
          simpa [mapGet, List.find?, hk] using h
        simp only [mapSet]
        rw [if_neg hk, ih h2]

theorem mapSet_append (m : List (String × α)) (k : String) (v : α)
    (h : ∀ p ∈ m, p.1 ≠ k) : mapSet m k v = m ++ [(k, v)] := by
  induction m with
  | nil => rfl
  | cons p rest ih =>
    have hne : p.1 ≠ k := h p (List.mem_cons_self p rest)
    cases p with
    | mk k0 v0 =>
      simp only [mapSet]
      rw [if_neg hne]
      rw [ih (fun q hq => h q (List.mem_cons_of_mem _ hq))]
      simp

/- ===================== C1 ===================== -/

/-- C1: when both usage endpoints respond, getUsage merges their responses
field by field, preferring the legacy (primary) endpoint's value whenever
present and otherwise taking the enhanced endpoint's, for each of
five_hour, seven_day, model_quotas, max_plan_type, compaction_buffer and
tokens_per_window; when exactly one endpoint responded the merge is that
response. -/
theorem claim1_merge_precedence :
    (∀ p s : ApiResponse, mergeApiResponses (some p) (some s) = some
      { five_hour := specPreferLegacy p.five_hour s.five_hour
        seven_day := specPreferLegacy p.seven_day s.seven_day
        model_quotas := specPreferLegacy p.model_quotas s.model_quotas
        max_plan_type := specPreferLegacy p.max_plan_type s.max_plan_type
        compaction_buffer := specPreferLegacy p.compaction_buffer s.compaction_buffer
        tokens_per_window := specPreferLegacy p.tokens_per_window s.tokens_per_window }) ∧
    (∀ p : ApiResponse, mergeApiResponses (some p) none = some p) ∧
    (∀ s : ApiResponse, mergeApiResponses none (some s) = some s) := by
  refine ⟨fun p s => ?_, fun p => rfl, fun s => rfl⟩
  simp [mergeApiResponses, jsNullish_eq_specPreferLegacy]

/- ===================== C2 ===================== -/

/-- C2: parseUtilization maps absent and non-finite inputs to null and
every finite input to an integer clamped to [0,100]; 150 yields 100, -5
yields 0, NaN yields null, and 0 yields 0 (never null). -/
theorem claim2_utilization_clamping :
    parseUtilization none = none ∧
    parseUtilization (some JsNum.nan) = none ∧
    parseUtilization (some JsNum.inf) = none ∧
    parseUtilization (some JsNum.ninf) = none ∧
    (∀ q : ℚ, ∃ n : Int, parseUtilization (some (JsNum.fin q)) = some n ∧ 0 ≤ n ∧ n ≤ 100) ∧
    (∀ q : ℚ, 100 ≤ q → parseUtilization (some (JsNum.fin q)) = some 100) ∧
    (∀ q : ℚ, q ≤ 0 → parseUtilization (some (JsNum.fin q)) = some 0) ∧
    parseUtilization (some (JsNum.fin 150)) = some 100 ∧
    parseUtilization (some (JsNum.fin (-5))) = some 0 ∧
    parseUtilization (some (JsNum.fin 0)) = some 0 := by
  refine ⟨rfl, rfl, rfl, rfl, fun q => ?_, fun q hq => ?_, fun q hq => ?_,
    by norm_num [parseUtilization, jsRound],
    by norm_num [parseUtilization, jsRound],
    by norm_num [parseUtilization, jsRound]⟩
  · refine ⟨jsRound (max 0 (min 100 q)), rfl, ?_, ?_⟩
    · have h1 : (0:ℚ) ≤ max 0 (min 100 q) := le_max_left _ _
      exact Int.le_floor.mpr (by push_cast; linarith)
    · have h2 : max 0 (min 100 q) ≤ 100 := max_le (by norm_num) (min_le_left _ _)
      have h3 : jsRound (max 0 (min 100 q)) ≤ Int.floor ((100:ℚ) + 1/2) :=
        Int.floor_le_floor (by linarith)
      have h4 : Int.floor ((100:ℚ) + 1/2) = 100 := by norm_num
      omega
  · have hmin : min (100:ℚ) q = 100 := min_eq_left hq
    have hmax : max (0:ℚ) 100 = 100 := by norm_num
    simp only [parseUtilization, hmin, hmax]
    norm_num [jsRound]
  · have hmin : min (100:ℚ) q = q := min_eq_right (by linarith)
    have hmax : max (0:ℚ) q = 0 := max_eq_left hq
    simp only [parseUtilization, hmin, hmax]
    norm_num [jsRound]

/-- C2 witness: the clamp branches of claim2_utilization_clamping applied
at the concrete inputs 150 and -5. -/
theorem claim2_utilization_clamping_witness :
    ((100:ℚ) ≤ 150 ∧ parseUtilization (some (JsNum.fin 150)) = some 100) ∧
    ((-5:ℚ) ≤ 0 ∧ parseUtilization (some (JsNum.fin (-5))) = some 0) :=
  ⟨⟨by norm_num, claim2_utilization_clamping.2.2.2.2.2.1 150 (by norm_num)⟩,
   ⟨by norm_num, claim2_utilization_clamping.2.2.2.2.2.2.1 (-5) (by norm_num)⟩⟩

/- ===================== C5 ===================== -/

/-- C5: the usage-cache write is NOT an atomic whole-file replace — the
operation sequence writeCache issues contains a direct in-place write
(fs.writeFileSync with truncation) to the final cache path, for every home
directory, content and pre-existing-directory state, so the claimed
temp-file-plus-rename atomicity is absent from the code. -/
theorem claim5_write_cache_not_atomic :
    ∀ (homeDir content : String) (dirExists : Bool),
      FsOp.writeFileInPlace (getCachePath homeDir) content ∈
          writeCacheOps homeDir content dirExists ∧
        ¬ isAtomicReplaceOf (getCachePath homeDir) (writeCacheOps homeDir content dirExists) := by
  intro h c d
  have hmem : FsOp.writeFileInPlace (getCachePath h) c ∈ writeCacheOps h c d := by
    cases d <;> simp [writeCacheOps]
  exact ⟨hmem, fun hA => hA.1 c hmem⟩

/- ===================== C9 ===================== -/

theorem foldl_processLine_filter (lines : List Line) (st : PassState) :
    lines.foldl processLine st = (lines.filter isGoodLine).foldl processLine st := by
  induction lines generalizing st with
  | nil => rfl
  | cons l rest ih =>
    cases l with
    | junk => simpa [isGoodLine, processLine] using ih st
    | good e => simp [isGoodLine, List.foldl, ih]

/-- C9: parseTranscript skips every line that fails to parse as JSON
without aborting the pass: its result on any transcript equals its result
on the same transcript with the malformed (junk) lines removed. -/
theorem claim9_malformed_lines_skipped :
    ∀ lines : List Line,
      parseTranscript lines = parseTranscript (lines.filter isGoodLine) := by
  intro lines
  unfold parseTranscript
  rw [foldl_processLine_filter]

/- ===================== C10 ===================== -/

/-- C10: getContextPercent never exceeds 100 on any stdin payload — both
the used_percentage branch and the token fallback cap at 100 — while the
bound is one-sided: the concrete payload with used_percentage -5 yields
-5, so no lower clamp at 0 is applied. -/
theorem claim10_context_percent_capped :
    (∀ stdin : StdinData, getContextPercent stdin ≤ 100) ∧
      getContextPercent
        { transcript_path := none, cwd := none, model := none,
          context_window := some
            { context_window_size := none, used_percentage := some (-5),
              remaining_percentage := none, current_usage := none } } = -5 := by
  constructor
  · intro stdin
    unfold getContextPercent
    cases hu : stdin.context_window.bind (fun cw => cw.used_percentage) with
    | some u => exact min_le_left _ _
    | none =>
      cases hs : stdin.context_window.bind (fun cw => cw.context_window_size) with
      | none => norm_num
      | some size =>
        by_cases h : size ≤ 0
        · simp [h]
        · simp only [if_neg h]
          exact min_le_left _ _
  · norm_num [getContextPercent]

/- ===================== C6 ===================== -/

/-- C6: when used_percentage is present getContextPercent returns exactly
that percentage floored and capped at 100 (so 42 yields 42), regardless
of any token sub-fields; when used_percentage is absent and the
context-window size is missing or zero it returns 0 instead of dividing
by zero. -/
theorem claim6_context_percent_direct :
    (∀ (stdin : StdinData) (u : ℚ),
        stdin.context_window.bind (fun cw => cw.used_percentage) = some u →
        getContextPercent stdin = min 100 (Int.floor u)) ∧
    (∀ stdin : StdinData,
        stdin.context_window.bind (fun cw => cw.used_percentage) = none →
        (stdin.context_window.bind (fun cw => cw.context_window_size) = none ∨
          stdin.context_window.bind (fun cw => cw.context_window_size) = some 0) →
        getContextPercent stdin = 0) ∧
    (∀ cu : Option CurrentUsage,
        getContextPercent
          { transcript_path := none, cwd := none, model := none,
            context_window := some
              { context_window_size := some 200000, used_percentage := some 42,
                remaining_percentage := none, current_usage := cu } } = 42) := by
  refine ⟨fun stdin u hu => ?_, fun stdin hu hs => ?_, fun cu => ?_⟩
  · unfold getContextPercent
    rw [hu]
  · unfold getContextPercent
    rw [hu]
    rcases hs with hs | hs
    · rw [hs]
    · rw [hs]
      norm_num
  · norm_num [getContextPercent]

/-- C6 witness: claim6_context_percent_direct applied at a concrete payload
carrying used_percentage 42 together with token sub-fields, and at a
concrete payload with no used_percentage and a zero window size. -/
theorem claim6_context_percent_direct_witness :
    getContextPercent
        { transcript_path := none, cwd := none, model := none,
          context_window := some
            { context_window_size := some 200000, used_percentage := some 42,
              remaining_percentage := none,
              current_usage := some
                { input_tokens := some 999999, cache_creation_input_tokens := some 1,
                  cache_read_input_tokens := some 2 } } } = min 100 (Int.floor (42:ℚ)) ∧
      getContextPercent
        { transcript_path := none, cwd := none, model := none,
          context_window := some
            { context_window_size := some 0, used_percentage := none,
              remaining_percentage := none, current_usage := none } } = 0 :=
  ⟨claim6_context_percent_direct.1 _ 42 rfl,
    claim6_context_percent_direct.2.1 _ rfl (Or.inr rfl)⟩


/- ===================== C3 ===================== -/

/-- C3: a cache record is valid exactly when now - timestamp < ttl, the
failure ttl (15s, used when the payload carries apiUnavailable) being
strictly shorter than the success ttl (60s); a getUsage call within the
success ttl of a cached success returns the cached payload (countdowns
refreshed from the stored reset dates) without invoking either fetch, and
once the failure ttl has elapsed on a cached failure the record is invalid
and getUsage reaches the fetch again (given resolvable credentials and a
plan). -/
theorem claim3_cache_ttl :
    CACHE_FAILURE_TTL_MS < CACHE_TTL_MS ∧
    (∀ (rec : CacheRecord) (now : Int),
        (readCache (some rec) now).isSome = true ↔
          now - rec.timestamp <
            (if rec.data.apiUnavailable then CACHE_FAILURE_TTL_MS else CACHE_TTL_MS)) ∧
    (∀ (deps : UsageDeps) (rec : CacheRecord),
        deps.cache = some rec →
        rec.data.apiUnavailable = false →
        deps.now - rec.timestamp < CACHE_TTL_MS →
        (getUsage deps).result = some (refreshCountdowns rec.data deps.now) ∧
          (getUsage deps).fetchInvoked = false ∧
          (getUsage deps).cacheWrite = none) ∧
    (∀ (deps : UsageDeps) (rec : CacheRecord) (creds : Credentials) (pn : String),
        deps.cache = some rec →
        rec.data.apiUnavailable = true →
        CACHE_FAILURE_TTL_MS ≤ deps.now - rec.timestamp →
        readCredentials deps.credFile deps.keychain deps.now = some creds →
        getPlanName creds.subscriptionType true = some pn →
        (getUsage deps).fetchInvoked = true) := by
  refine ⟨by norm_num [CACHE_FAILURE_TTL_MS, CACHE_TTL_MS], fun rec now => ?_,
    fun deps rec hc havail hlt => ?_, fun deps rec creds pn hc havail hge hcred hplan => ?_⟩
  · simp only [readCache]
    by_cases h : now - rec.timestamp ≥
        (if rec.data.apiUnavailable then CACHE_FAILURE_TTL_MS else CACHE_TTL_MS)
    · rw [if_pos h]
      simp only [Option.isSome_none, Bool.false_eq_true, false_iff]
      omega
    · rw [if_neg h]
      simp only [Option.isSome_some, true_iff]
      omega
  · have hrc : readCache deps.cache deps.now = some rec.data := by
      rw [hc]
      simp only [readCache, havail, Bool.false_eq_true, if_false]
      rw [if_neg (by omega)]
    refine ⟨?_, ?_, ?_⟩ <;> simp [getUsage, hrc]
  · have hrc : readCache deps.cache deps.now = none := by
      rw [hc]
      simp only [readCache, havail, if_true]
      rw [if_pos (by omega)]
    cases hm : mergeApiResponses deps.apiResponse deps.usageLimitsResponse <;>
      simp [getUsage, hrc, hcred, hplan, hm]

/-- C3 witness: claim3_cache_ttl applied to a concrete cached success 30s
old (no fetch) and a concrete cached failure exactly 15s old with valid
Pro credentials (fetch retried). -/
theorem claim3_cache_ttl_witness :
    (((30000:Int) - 0 < CACHE_TTL_MS) ∧
      (getUsage
        { cache := some
            { data := { planName := some proPlan, fiveHour := some 10, sevenDay := some 20,
                        fiveHourResetAt := none, sevenDayResetAt := none },
              timestamp := 0 }
          credFile := none, keychain := none, apiResponse := none,
          usageLimitsResponse := none, dateParse := fun _ => none,
          now := 30000 }).fetchInvoked = false) ∧
    ((CACHE_FAILURE_TTL_MS ≤ (15000:Int) - 0) ∧
      (getUsage
        { cache := some
            { data := { planName := some proPlan, fiveHour := none, sevenDay := none,
                        fiveHourResetAt := none, sevenDayResetAt := none,
                        apiUnavailable := true },
              timestamp := 0 }
          credFile := some
            { claudeAiOauth := some
                { accessToken := some proKw, subscriptionType := some proKw,
                  expiresAt := none, rateLimitTier := none },
              oauthAccount := none }
          keychain := none, apiResponse := none, usageLimitsResponse := none,
          dateParse := fun _ => none, now := 15000 }).fetchInvoked = true) :=
  ⟨⟨by norm_num [CACHE_TTL_MS],
    ((claim3_cache_ttl.2.2.1 _ _ rfl rfl (by norm_num [CACHE_TTL_MS])).2.1)⟩,
   ⟨by norm_num [CACHE_FAILURE_TTL_MS],
    claim3_cache_ttl.2.2.2 _ _ ⟨proKw, proKw, none, none⟩ proPlan rfl rfl
      (by norm_num [CACHE_FAILURE_TTL_MS]) (by decide) (by decide)⟩⟩

/- ===================== C7 ===================== -/

/-- C7: credentials whose expiry timestamp is at or before the clock
(including exactly equal) resolve to null, and getUsage then returns a
silent null result with no fetch and no cache write; the boundary
comparison is inclusive. -/
theorem claim7_expiry_inclusive :
    (∀ (d : CredData) (o : OauthSection) (kc : Option CredData) (e now : Int),
        d.claudeAiOauth = some o →
        strTruthy o.accessToken = true →
        o.expiresAt = some e →
        e ≤ now →
        readCredentials (some d) kc now = none) ∧
    (∀ (deps : UsageDeps) (d : CredData) (o : OauthSection) (e : Int),
        readCache deps.cache deps.now = none →
        deps.credFile = some d →
        d.claudeAiOauth = some o →
        strTruthy o.accessToken = true →
        o.expiresAt = some e →
        e ≤ deps.now →
        getUsage deps = { result := none, fetchInvoked := false, cacheWrite := none }) := by
  have hmain : ∀ (d : CredData) (o : OauthSection) (kc : Option CredData) (e now : Int),
      d.claudeAiOauth = some o →
      strTruthy o.accessToken = true →
      o.expiresAt = some e →
      e ≤ now →
      readCredentials (some d) kc now = none := by
    intro d o kc e now ho htok hexp hle
    simp [readCredentials, ho, htok, hexp, hle]
  refine ⟨hmain, fun deps d o e hrc hcf ho htok hexp hle => ?_⟩
  have hcred : readCredentials deps.credFile deps.keychain deps.now = none := by
    rw [hcf]
    exact hmain d o deps.keychain e deps.now ho htok hexp hle
  simp [getUsage, hrc, hcred]

/-- C7 witness: claim7_expiry_inclusive applied to concrete credentials
whose expiresAt equals the clock exactly (1000 = 1000), exercising the
inclusive boundary. -/
theorem claim7_expiry_inclusive_witness :
    ((1000:Int) ≤ 1000) ∧
      getUsage
        { cache := none
          credFile := some
            { claudeAiOauth := some
                { accessToken := some proKw, subscriptionType := some proKw,
                  expiresAt := some 1000, rateLimitTier := none },
              oauthAccount := none }
          keychain := none, apiResponse := none, usageLimitsResponse := none,
          dateParse := fun _ => none, now := 1000 } =
        { result := none, fetchInvoked := false, cacheWrite := none } :=
  ⟨le_refl 1000,
    claim7_expiry_inclusive.2 _
      { claudeAiOauth := some
          { accessToken := some proKw, subscriptionType := some proKw,
            expiresAt := some 1000, rateLimitTier := none },
        oauthAccount := none }
      { accessToken := some proKw, subscriptionType := some proKw,
        expiresAt := some 1000, rateLimitTier := none }
      1000 rfl rfl rfl (by decide) rfl (le_refl 1000)⟩

/- ===================== C4 ===================== -/

/-- C4 counterexample: a state whose only tool entry is already completed
with an end time set is changed by one more tool_result carrying the same
correlation id but a later timestamp — processEntry overwrites the end
time with the duplicate's timestamp, so the claimed unconditional
idempotence fails. -/
theorem claim4_duplicate_result_counterexample :
    ((mapGet (processEntry (toolResultLineAt sampleId false (some sampleTs1))
          (processEntry (toolUseLineAt sampleId readStr (some sampleTs0)) emptyAcc)).toolMap
        sampleId).map (fun t => t.status) = some ToolStatus.completed ∧
      ((mapGet (processEntry (toolResultLineAt sampleId false (some sampleTs1))
            (processEntry (toolUseLineAt sampleId readStr (some sampleTs0)) emptyAcc)).toolMap
          sampleId).bind (fun t => t.endTime)).isSome = true) ∧
      processEntry (toolResultLineAt sampleId false (some sampleTs2))
          (processEntry (toolResultLineAt sampleId false (some sampleTs1))
            (processEntry (toolUseLineAt sampleId readStr (some sampleTs0)) emptyAcc)) ≠
        processEntry (toolResultLineAt sampleId false (some sampleTs1))
          (processEntry (toolUseLineAt sampleId readStr (some sampleTs0)) emptyAcc) := by
  decide

/-- C4 amended: applying a duplicate tool_result to an already-finalized
tool entry leaves the state unchanged only when the duplicate is an exact
replay of the finalizing result event — same correlation id, an error flag
matching the recorded status, and a timestamp equal to the recorded end
time (and the id is not also an agent id, and the session start is already
set); a duplicate with a different timestamp or error flag rewrites the
entry instead. -/
theorem claim4_duplicate_result_amended :
    ∀ (acc : AccState) (tid : String) (err : Bool) (tsStr : Option String) (tool : ToolEntry),
      acc.sessionStart.isSome = true →
      tid ≠ emptyStr →
      mapGet acc.toolMap tid = some tool →
      tool.status = (if err then ToolStatus.error else ToolStatus.completed) →
      tool.endTime = some (dateOfTimestamp tsStr) →
      mapGet acc.agentMap tid = none →
      processEntry (toolResultLineAt tid err tsStr) acc = acc := by
  intro acc tid err tsStr tool hss htid htool hstat hend hagent
  have hne : ¬(acc.sessionStart = none ∧ strTruthy tsStr = true) := by
    intro h
    rw [h.1] at hss
    simp at hss
  have hupd : ({ tool with
      status := if err then ToolStatus.error else ToolStatus.completed,
      endTime := some (dateOfTimestamp tsStr) } : ToolEntry) = tool := by
    cases tool
    simp_all
  have hms : mapSet acc.toolMap tid tool = acc.toolMap := mapSet_self _ _ _ htool
  simp only [processEntry, toolResultLineAt]
  rw [if_neg hne]
  simp only [List.foldl, processBlock]
  rw [if_neg (show ¬(toolResultStr = toolUseStr) from by decide)]
  simp only [eq_self_iff_true, if_true]
  rw [if_pos htid]
  simp only [htool, Option.getD_some]
  rw [hupd, hms]
  simp only [hagent]

/-- C4 witness: claim4_duplicate_result_amended applied to a concrete
state holding one completed tool whose end time equals the replayed
result's timestamp. -/
theorem claim4_duplicate_result_amended_witness :
    (mapGet ([(sampleId,
        ({ id := sampleId, name := readStr, target := none,
           status := ToolStatus.completed, startTime := JsDate.current,
           endTime := some (JsDate.parsed sampleTs1) } : ToolEntry))]) sampleId).isSome = true ∧
      processEntry (toolResultLineAt sampleId false (some sampleTs1))
        { toolMap := [(sampleId,
            { id := sampleId, name := readStr, target := none,
              status := ToolStatus.completed, startTime := JsDate.current,
              endTime := some (JsDate.parsed sampleTs1) })],
          agentMap := [], latestTodos := [], sessionStart := some JsDate.current } =
        { toolMap := [(sampleId,
            { id := sampleId, name := readStr, target := none,
              status := ToolStatus.completed, startTime := JsDate.current,
              endTime := some (JsDate.parsed sampleTs1) })],
          agentMap := [], latestTodos := [], sessionStart := some JsDate.current } :=
  ⟨by decide,
    claim4_duplicate_result_amended _ sampleId false (some sampleTs1)
      { id := sampleId, name := readStr, target := none,
        status := ToolStatus.completed, startTime := JsDate.current,
        endTime := some (JsDate.parsed sampleTs1) }
      rfl (by decide) (by decide) rfl (by decide) rfl⟩

/- ===================== C8 ===================== -/

theorem processLine_toolUse (st : PassState) (bid bname : String)
    (hbid : bid ≠ emptyStr) (hbname : bname ≠ emptyStr)
    (htask : bname ≠ taskStr) (htodo : bname ≠ todoWriteStr) :
    processLine st (Line.good (toolUseLineAt bid bname none)) =
      { acc := { st.acc with
          toolMap := mapSet st.acc.toolMap bid (toolEntryOfPair (bid, bname)) },
        userMessages := st.userMessages } := by
  simp only [processLine, toolUseLineAt, processEntry]
  rw [if_neg (fun h => by simpa [strTruthy] using h.2)]
  simp only [List.foldl, processBlock]
  simp only [eq_self_iff_true, if_true]
  rw [if_neg htask, if_neg htodo]
  rw [if_pos (And.intro hbid hbname)]
  simp [toolEntryOfPair, extractTarget, dateOfTimestamp]
  intro h
  exact absurd h (by decide)

theorem processLine_taskUse (st : PassState) (aid : String) (haid : aid ≠ emptyStr) :
    processLine st (Line.good (toolUseLineAt aid taskStr none)) =
      { acc := { st.acc with agentMap := mapSet st.acc.agentMap aid (agentEntryOfId aid) },
        userMessages := st.userMessages } := by
  simp only [processLine, toolUseLineAt, processEntry]
  rw [if_neg (fun h => by simpa [strTruthy] using h.2)]
  simp only [List.foldl, processBlock]
  simp only [eq_self_iff_true, if_true]
  rw [if_pos (And.intro haid (show taskStr ≠ emptyStr from by decide))]
  simp [agentEntryOfId, dateOfTimestamp]
  intro h
  exact absurd h (by decide)

theorem foldl_toolUseLines (ps : List (String × String)) :
    ∀ st : PassState,
      (∀ p ∈ ps, p.1 ≠ emptyStr ∧ p.2 ≠ emptyStr ∧ p.2 ≠ taskStr ∧ p.2 ≠ todoWriteStr) →
      (∀ p ∈ ps, ∀ q ∈ st.acc.toolMap, q.1 ≠ p.1) →
      (ps.map Prod.fst).Nodup →
      (ps.map (fun p => Line.good (toolUseLineAt p.1 p.2 none))).foldl processLine st =
        { acc := { st.acc with toolMap :=
              st.acc.toolMap ++ ps.map (fun p => (p.1, toolEntryOfPair p)) },
          userMessages := st.userMessages } := by
  induction ps with
  | nil => intro st _ _ _; simp
  | cons p rest ih =>
    intro st hok hfresh hnodup
    have hokp := hok p (List.mem_cons_self _ _)
    have hfreshp : ∀ q ∈ st.acc.toolMap, q.1 ≠ p.1 := hfresh p (List.mem_cons_self _ _)
    have hset : mapSet st.acc.toolMap p.1 (toolEntryOfPair (p.1, p.2)) =
        st.acc.toolMap ++ [(p.1, toolEntryOfPair (p.1, p.2))] :=
      mapSet_append _ _ _ hfreshp
    have hnd : (∀ x, (p.1, x) ∉ rest) ∧ (rest.map Prod.fst).Nodup := by simpa using hnodup
    rw [List.map_cons, List.foldl_cons,
      processLine_toolUse st p.1 p.2 hokp.1 hokp.2.1 hokp.2.2.1 hokp.2.2.2]
    rw [ih _ (fun q hq => hok q (List.mem_cons_of_mem _ hq))
      (by
        intro w hw r hr
        simp only [hset] at hr
        rcases List.mem_append.mp hr with hr | hr
        · exact hfresh w (List.mem_cons_of_mem _ hw) r hr
        · simp only [List.mem_singleton] at hr
          subst hr
          intro hcontra
          cases w with
          | mk a b =>
            apply hnd.1 b
            have hpa : p.1 = a := hcontra
            rw [hpa]
            exact hw)
      hnd.2]
    simp [hset, List.append_assoc]

theorem foldl_taskUseLines (ids : List String) :
    ∀ st : PassState,
      (∀ a ∈ ids, a ≠ emptyStr) →
      (∀ a ∈ ids, ∀ q ∈ st.acc.agentMap, q.1 ≠ a) →
      ids.Nodup →
      (ids.map (fun a => Line.good (toolUseLineAt a taskStr none))).foldl processLine st =
        { acc := { st.acc with agentMap :=
              st.acc.agentMap ++ ids.map (fun a => (a, agentEntryOfId a)) },
          userMessages := st.userMessages } := by
  induction ids with
  | nil => intro st _ _ _; simp
  | cons a rest ih =>
    intro st hok hfresh hnodup
    have hoka := hok a (List.mem_cons_self _ _)
    have hfresha : ∀ q ∈ st.acc.agentMap, q.1 ≠ a := hfresh a (List.mem_cons_self _ _)
    have hset : mapSet st.acc.agentMap a (agentEntryOfId a) =
        st.acc.agentMap ++ [(a, agentEntryOfId a)] :=
      mapSet_append _ _ _ hfresha
    have hnd : a ∉ rest ∧ rest.Nodup := List.nodup_cons.mp hnodup
    rw [List.map_cons, List.foldl_cons, processLine_taskUse st a hoka]
    rw [ih _ (fun b hb => hok b (List.mem_cons_of_mem _ hb))
      (by
        intro b hb r hr
        simp only [hset] at hr
        rcases List.mem_append.mp hr with hr | hr
        · exact hfresh b (List.mem_cons_of_mem _ hb) r hr
        · simp only [List.mem_singleton] at hr
          subst hr
          intro hcontra
          have hab : a = b := hcontra
          exact hnd.1 (hab.symm ▸ hb))
      hnd.2]
    simp [hset, List.append_assoc]

/-- C8: N distinct non-Task non-TodoWrite tool_use lines with no duplicate
ids produce a tool map holding all N entries in discovery order, and the
post-pass slice(-20) leaves exactly the most recent 20 whenever N > 20;
agents from Task lines are likewise trimmed to the most recent 10. -/
theorem claim8_bounded_retention :
    (∀ ps : List (String × String),
        (∀ p ∈ ps, p.1 ≠ emptyStr ∧ p.2 ≠ emptyStr ∧ p.2 ≠ taskStr ∧ p.2 ≠ todoWriteStr) →
        (ps.map Prod.fst).Nodup →
        (parseTranscript (ps.map (fun p => Line.good (toolUseLineAt p.1 p.2 none)))).tools =
            sliceLast 20 (ps.map toolEntryOfPair) ∧
          (20 < ps.length →
            (parseTranscript
              (ps.map (fun p => Line.good (toolUseLineAt p.1 p.2 none)))).tools.length = 20)) ∧
    (∀ ids : List String,
        (∀ a ∈ ids, a ≠ emptyStr) →
        ids.Nodup →
        (parseTranscript (ids.map (fun a => Line.good (toolUseLineAt a taskStr none)))).agents =
            sliceLast 10 (ids.map agentEntryOfId) ∧
          (10 < ids.length →
            (parseTranscript
              (ids.map (fun a => Line.good (toolUseLineAt a taskStr none)))).agents.length = 10)) := by
  constructor
  · intro ps hok hnodup
    have hfold := foldl_toolUseLines ps initialPassState hok
      (by
        intro p hp q hq
        simp [initialPassState, emptyAcc] at hq)
      hnodup
    have htools : (parseTranscript
        (ps.map (fun p => Line.good (toolUseLineAt p.1 p.2 none)))).tools =
        sliceLast 20 (ps.map toolEntryOfPair) := by
      unfold parseTranscript
      rw [hfold]
      simp [initialPassState, emptyAcc, List.map_map, Function.comp_def]
    refine ⟨htools, fun hlen => ?_⟩
    rw [htools]
    simp only [sliceLast, List.length_drop, List.length_map]
    omega
  · intro ids hok hnodup
    have hfold := foldl_taskUseLines ids initialPassState hok
      (by
        intro a ha q hq
        simp [initialPassState, emptyAcc] at hq)
      hnodup
    have hagents : (parseTranscript
        (ids.map (fun a => Line.good (toolUseLineAt a taskStr none)))).agents =
        sliceLast 10 (ids.map agentEntryOfId) := by
      unfold parseTranscript
      rw [hfold]
      simp [initialPassState, emptyAcc, List.map_map, Function.comp_def]
    refine ⟨hagents, fun hlen => ?_⟩
    rw [hagents]
    simp only [sliceLast, List.length_drop, List.length_map]
    omega

/-- C8 witness: claim8_bounded_retention applied to 21 distinct tool ids
(exactly 20 survive) and 11 distinct Task agent ids (exactly 10
survive). -/
theorem claim8_bounded_retention_witness :
    (20 < ((List.range 21).map
        (fun i => (String.mk (List.replicate (i + 1) 'a'), readStr))).length ∧
      (parseTranscript (((List.range 21).map
          (fun i => (String.mk (List.replicate (i + 1) 'a'), readStr))).map
            (fun p => Line.good (toolUseLineAt p.1 p.2 none)))).tools.length = 20) ∧
    (10 < ((List.range 11).map (fun i => String.mk (List.replicate (i + 1) 'b'))).length ∧
      (parseTranscript (((List.range 11).map
          (fun i => String.mk (List.replicate (i + 1) 'b'))).map
            (fun a => Line.good (toolUseLineAt a taskStr none)))).agents.length = 10) :=
  ⟨⟨by decide,
    (claim8_bounded_retention.1 _ (by decide) (by decide)).2 (by decide)⟩,
   ⟨by decide,
    (claim8_bounded_retention.2 _ (by decide) (by decide)).2 (by decide)⟩⟩
